import Mathlib

/-!
Verification of the overlay coordination engine of `pulsar-hover`.

The development shallowly embeds the parts of the package that the claims
are about:

* `Timer` (src/util.ts) — the debounce scheduler, modelled as an explicit
  state record plus a discrete-event run function that fires due timeouts.
* `ProviderRegistry` (src/provider-registry.ts) — provider filtering and
  priority sorting.  JavaScript `Array.prototype.sort` is stable and sorts
  according to the comparator, which for the comparator
  `(a, b) => a.priority - b.priority` is exactly what a stable insertion
  sort by `priority ≤` computes, so the model uses `List.insertionSort`.
* the markdown normalisation helpers of `datatip-manager.ts`
  (`inferLanguageFromScopeName`, `convertMarkedString`, `convertDatatip`,
  `buildFencedCodeBlock`, `interpretParameterLabel`,
  `buildParameterDocumentation`, `buildSignatureDocumentation`).
* the `OverlayManager` state machine (`unmountOverlay`,
  `showHoverOverlay`, `showSignatureHelp`, `onCursorRemain`,
  `onTextDidChangeSignatureHelp`).  Asynchronous provider queries are
  modelled by passing the outcome of the query (null result, value, or a
  thrown exception) as an explicit input; each operation is a pure
  function from the engine state to a new state together with a trace of
  observable events (handle disposal, overlay mounting, query issuance,
  error logging).
-/

/-! ### Buffer geometry (Atom `Point` and `Range`) -/

/-- A buffer position, `{ row, column }` in Atom. -/
structure Pos where
  row : Nat
  col : Nat
deriving DecidableEq, Repr

/-- Strict lexicographic order on buffer positions (Atom `Point.compare`). -/
def Pos.ltb (a b : Pos) : Bool :=
  a.row < b.row || (a.row == b.row && a.col < b.col)

/-- Non-strict lexicographic order on buffer positions. -/
def Pos.leb (a b : Pos) : Bool :=
  a.row < b.row || (a.row == b.row && a.col ≤ b.col)

/-- A buffer range.  The field `stop` models the range property `end`
(a reserved word in Lean). -/
structure BufRange where
  start : Pos
  stop : Pos
deriving DecidableEq, Repr

/-- Atom `Range.containsPoint(point)` (non-exclusive): the point is at or
after the start and at or before the end. -/
def containsPointB (r : BufRange) (p : Pos) : Bool :=
  Pos.leb r.start p && Pos.leb p r.stop

/-- Atom `Range.intersectsWith(other)` (non-exclusive):
`!(this.start > other.end || this.end < other.start)`. -/
def rangesIntersectB (a b : BufRange) : Bool :=
  !(Pos.ltb b.stop a.start || Pos.ltb a.stop b.start)

/-! ### The debounce scheduler (`Timer`, src/util.ts)

The mutable fields of the TypeScript class are the record fields below; a
`setTimeout` registration is modelled as the absolute time at which the
armed invocation would run together with the arguments captured at
scheduling time.  The handler invocation itself is an observable event
`(fireTime, args)`. -/

/-- State of a `Timer`: the armed `setTimeout` (if any) with its fire time
and captured arguments, and the `pendingArgs` field. -/
structure TimerState (α : Type) where
  timeout : Option (Nat × α)
  pendingArgs : Option α
deriving DecidableEq, Repr

/-- A timer on which nothing has been scheduled. -/
def timerIdle {α : Type} : TimerState α := ⟨none, none⟩

/-- The function `Timer.unschedule`: if no timeout is armed this does nothing; otherwise
it clears the timeout.  Note that `pendingArgs` is left untouched. -/
def Timer.unschedule {α : Type} (s : TimerState α) : TimerState α :=
  match s.timeout with
  | none => s
  | some _ => { s with timeout := none }

/-- The function `Timer.schedule(...args)` at absolute time `now`: first `unschedule`,
then record `pendingArgs` and arm a timeout for `now + duration` carrying
the arguments. -/
def Timer.schedule {α : Type} (duration now : Nat) (args : α) (s : TimerState α) :
    TimerState α :=
  let s1 := Timer.unschedule s
  { s1 with pendingArgs := some args, timeout := some (now + duration, args) }

/-- The `isPending` getter: whether a timeout is armed. -/
def Timer.isPending {α : Type} (s : TimerState α) : Bool :=
  s.timeout.isSome

/-- Advance time to `now`: if the armed timeout is due, the handler runs
with the captured arguments, after which the timeout and `pendingArgs` are
cleared (exactly the body of the `setTimeout` callback).  Returns the new
state and the (zero or one) handler invocations that happened. -/
def fireIfDue {α : Type} (now : Nat) (s : TimerState α) :
    TimerState α × List (Nat × α) :=
  match s.timeout with
  | some (ft, a) =>
    if ft ≤ now then (⟨none, none⟩, [(ft, a)]) else (s, [])
  | none => (s, [])

/-- Run a sequence of `schedule` calls, each given as (call time, args).
Before each call the clock advances to the call time, firing a due
timeout; after the last call the clock runs to infinity, so a still-armed
timeout fires at its fire time.  Returns the final state and the list of
handler invocations in order. -/
def runSchedules {α : Type} (duration : Nat) (s : TimerState α) :
    List (Nat × α) → TimerState α × List (Nat × α)
  | [] =>
    match s.timeout with
    | some (ft, a) => (⟨none, none⟩, [(ft, a)])
    | none => (s, [])
  | (t, a) :: rest =>
    let p1 := fireIfDue t s
    let s2 := Timer.schedule duration t a p1.1
    let p2 := runSchedules duration s2 rest
    (p2.1, p1.2 ++ p2.2)

/-- The premise of the debounce claim: each call happens strictly less than
one full duration after the previous call. -/
def gapsLtB {α : Type} (d : Nat) : List (Nat × α) → Bool
  | [] => true
  | [_] => true
  | (t1, _) :: (t2, a2) :: rest =>
    decide (t2 < t1 + d) && gapsLtB d ((t2, a2) :: rest)

/-! ### The provider registry (src/provider-registry.ts) -/

/-- A registered provider, projected to the fields the registry reads
(`BaseProvider`): the optional grammar-scope allowlist and the integer
priority.  The `name` field stands for the identity of the provider
object. -/
structure Provider where
  name : String
  grammarScopes : Option (List String)
  priority : Int
deriving DecidableEq, Repr

/-- The function `isEditorSupported`: the provider has no `grammarScopes` list, or the
list contains the scope name of the current grammar of the editor. -/
def isEditorSupported (scopeName : String) (p : Provider) : Bool :=
  match p.grammarScopes with
  | none => true
  | some scopes => scopes.contains scopeName

/-- The ordering used by the sort comparator
`(a, b) => a.priority - b.priority`. -/
def priorityLe (a b : Provider) : Prop :=
  a.priority ≤ b.priority

instance : DecidableRel priorityLe :=
  fun a b => inferInstanceAs (Decidable (a.priority ≤ b.priority))

instance : IsTotal Provider priorityLe :=
  ⟨fun a b => Int.le_total a.priority b.priority⟩

instance : IsTrans Provider priorityLe :=
  ⟨fun _ _ _ => Int.le_trans⟩

/-- The function `getAllProvidersForEditor`: filter the registered providers down to
those supporting the editor, then sort ascending by priority.
JavaScript `Array.prototype.sort` is a stable sort, which
`List.insertionSort` by the reflexive relation `priorityLe` computes. -/
def getAllProvidersForEditor (providers : List Provider) (scopeName : String) :
    List Provider :=
  (providers.filter (isEditorSupported scopeName)).insertionSort priorityLe

/-- The function `getProviderForEditor`: the first element of
`getAllProvidersForEditor`, or null when that list is empty. -/
def getProviderForEditor (providers : List Provider) (scopeName : String) :
    Option Provider :=
  let all := getAllProvidersForEditor providers scopeName
  if all.length = 0 then none else all.head?

/-! ### Hover content normalisation (datatip-manager.ts helpers) -/

/-- Character-level prefix test, modelling `String.prototype.startsWith`
respectively the anchored part of a regex match. -/
def strStartsWith (s pre : String) : Bool :=
  pre.toList.isPrefixOf s.toList

/-- The capture of `scopeName.match(/^source\.(.*?)/)`.  The regex is
anchored and matches whenever the string starts with `source.`; the lazy
group `(.*?)`, with nothing following it in the pattern, always succeeds
after consuming zero characters, so the capture is the empty string. -/
def regexSourceCapture (scopeName : String) : Option String :=
  if strStartsWith scopeName "source." then some "" else none

/-- The function `inferLanguageFromScopeName`: `m ? m[1] : ''` on the match above. -/
def inferLanguageFromScopeName (scopeName : String) : String :=
  (regexSourceCapture scopeName).getD ""

/-- The `MarkedString` type of the legacy datatip service: either a
markdown string or a code snippet tagged with a grammar (of which only
`grammar.scopeName` is read). -/
inductive MarkedString
  | markdown (value : String)
  | snippet (value : String) (grammarScopeName : String)
deriving DecidableEq, Repr

/-- JavaScript default object-to-string conversion: the template literal
in `convertMarkedString` interpolates `${str}` — the `MarkedString`
object itself, not `str.value` — which stringifies a plain object as
`[object Object]`. -/
def MarkedString.jsInterp : MarkedString → String
  | _ => "[object Object]"

/-- The function `convertMarkedString`: markdown strings pass through; snippets become
a fenced code block tagged with the inferred language. -/
def convertMarkedString (str : MarkedString) : String :=
  match str with
  | .markdown value => value
  | .snippet _ grammarScopeName =>
    let language := inferLanguageFromScopeName grammarScopeName
    "```" ++ language ++ "\n" ++ MarkedString.jsInterp str ++ "\n```"

/-- Kind tag of hover markup content. -/
inductive MarkupKind
  | markdown
  | plaintext
deriving DecidableEq, Repr

/-- The `contents` value of a `HoverInformation`. -/
structure HoverContents where
  kind : MarkupKind
  value : String
deriving DecidableEq, Repr

/-- A `HoverInformation` result: an optional buffer range plus contents. -/
structure HoverInformation where
  range : Option BufRange
  contents : HoverContents
deriving DecidableEq, Repr

/-- A legacy `Datatip` result: either marked strings with a range, or a
React-component datatip (which the engine cannot render).  Both variants
carry a (required) range. -/
inductive Datatip
  | marked (markedStrings : List MarkedString) (range : BufRange)
  | component (range : BufRange)
deriving DecidableEq, Repr

/-- The `range` property common to both datatip variants. -/
def Datatip.range : Datatip → BufRange
  | .marked _ r => r
  | .component r => r

/-- The function `convertDatatip`: component datatips cannot be converted and yield
null; marked-string datatips join the converted fragments with blank
lines into a single markdown content value. -/
def convertDatatip : Datatip → Option HoverInformation
  | .component _ => none
  | .marked strs r =>
    some ⟨some r, ⟨MarkupKind.markdown,
      String.intercalate "\n\n" (strs.map convertMarkedString)⟩⟩

/-! ### Signature-help content helpers (datatip-manager.ts) -/

/-- The label of a signature parameter: a literal string, or a pair of
character offsets into the label of the enclosing signature. -/
inductive ParamLabel
  | text (value : String)
  | offsets (startOffset endOffset : Nat)
deriving DecidableEq, Repr

/-- A signature parameter.  The documentation field collapses the source
union `string | MarkupContent` to the string carried either way (the code
maps null to the empty string, a string to itself, and an object to its
`value`). -/
structure SignatureParameter where
  label : ParamLabel
  documentation : Option String
deriving DecidableEq, Repr

/-- A candidate signature. -/
structure Signature where
  label : String
  documentation : Option String
  parameters : Option (List SignatureParameter)
deriving DecidableEq, Repr

/-- A signature-help result. -/
structure SignatureHelp where
  signatures : List Signature
  activeSignature : Option Nat
  activeParameter : Option Nat
deriving DecidableEq, Repr

/-- Index of the first occurrence of `needle` in `hay`
(`String.prototype.indexOf`, as character lists). -/
def charIndexOf (hay needle : List Char) : Option Nat :=
  if needle.isPrefixOf hay then some 0
  else
    match hay with
    | [] => none
    | _ :: t => (charIndexOf t needle).map (· + 1)

/-- The function `String.prototype.indexOf` on strings. -/
def strIndexOf (hay needle : String) : Option Nat :=
  charIndexOf hay.toList needle.toList

/-- The function `String.prototype.includes`. -/
def strIncludes (hay needle : String) : Bool :=
  (strIndexOf hay needle).isSome

/-- The function `interpretParameterLabel`: a string label found inside the signature
label yields the whole signature label plus the occurrence bounds as the
highlight; a string label not found (or an empty signature label, which
is falsy) yields just the parameter label with no highlight; an offset
pair yields the signature label with the offsets as the highlight. -/
def interpretParameterLabel (label : ParamLabel) (signature : Signature) :
    String × Option (Nat × Nat) :=
  match label with
  | .text str =>
    if !(signature.label == "") && strIncludes signature.label str then
      let s := (strIndexOf signature.label str).getD 0
      (signature.label, some (s, s + str.length))
    else (str, none)
  | .offsets a b => (signature.label, some (a, b))

/-- The function `buildFencedCodeBlock(value, grammarName)`. -/
def buildFencedCodeBlock (value : String) (grammarName : Option String) : String :=
  "```" ++ grammarName.getD "" ++ "\n" ++ value ++ "\n```\n"

/-- The function `buildSignatureDocumentation`: the documentation of the signature as a
string, empty when absent. -/
def buildSignatureDocumentation (signature : Signature) : String :=
  signature.documentation.getD ""

/-- The function `buildParameterDocumentation`: fenced code block of the interpreted
label, a blank line, the parameter documentation, and optionally the
signature documentation after a horizontal rule. -/
def buildParameterDocumentation (parameter : SignatureParameter)
    (signature : Signature) (grammarName : String)
    (includeSignatureDocumentation : Bool) : String × Option (Nat × Nat) :=
  let doc := parameter.documentation.getD ""
  let lh := interpretParameterLabel parameter.label signature
  let sigDoc := buildSignatureDocumentation signature
  let sigDocPart :=
    if !(sigDoc == "") && includeSignatureDocumentation then
      "\n\n---\n\n" ++ sigDoc
    else ""
  (buildFencedCodeBlock lh.1 (some grammarName) ++ "\n" ++ doc ++ sigDocPart, lh.2)

/-! ### The overlay coordination engine (`OverlayManager`) -/

/-- The `OverlayType` tag: `hover` or `signature-help`. -/
inductive OverlayType
  | hover
  | signatureHelp
deriving DecidableEq, Repr

/-- The engine state: the composite disposable of the mounted overlay
(`overlayMarkerDisposables`, modelled as an opaque live handle), the
marker range, the overlay type tag, and the two configuration flags read
by the cursor and text-change paths. -/
structure EngineState where
  overlayMarkerDisposables : Option Unit
  currentMarkerRange : Option BufRange
  currentOverlayType : Option OverlayType
  showHoverOnCursorMove : Bool
  showSignatureHelpWhileTyping : Bool
deriving DecidableEq, Repr

/-- Observable events of one engine continuation: disposal of the live
overlay handle, mounting of a new overlay (with the markdown payload that
was rendered into it), invocation of hover resolution, issuance of a
signature query, and logging of a caught exception. -/
inductive SigTriggerKind
  | invoked
  | triggerCharacter
  | contentChange
deriving DecidableEq, Repr

/-- The LSP `SignatureHelpContext` constructed by
`buildSignatureHelpContext`. -/
structure SignatureHelpContext where
  triggerKind : SigTriggerKind
  triggerCharacter : Option Char
  isRetrigger : Bool
deriving DecidableEq, Repr

/-- Observable engine events (see `EngineState`). -/
inductive EngineEvent
  | unmountDispose
  | mount (ty : OverlayType) (markdown : String)
  | hoverQuery (pos : Pos)
  | sigQuery (ctx : SignatureHelpContext)
  | logError
deriving DecidableEq, Repr

/-- Number of live overlay handles in a state: one when
`overlayMarkerDisposables` is non-null, else zero. -/
def liveOf (s : EngineState) : Nat :=
  if s.overlayMarkerDisposables.isSome then 1 else 0

/-- The function `unmountOverlay`: null out the marker range and the overlay type, then
dispose `overlayMarkerDisposables` (a no-op when nothing is mounted) and
null it out. -/
def unmountOverlay (s : EngineState) : EngineState × List EngineEvent :=
  ({ s with currentMarkerRange := none, currentOverlayType := none,
            overlayMarkerDisposables := none },
   if s.overlayMarkerDisposables.isSome then [EngineEvent.unmountDispose] else [])

/-- Outcome of the provider-query phase of `showHoverOverlay`: a provider
threw or rejected; every provider returned null; a `hover` provider
returned a `HoverInformation`; or a legacy `datatip` provider returned a
`Datatip`. -/
inductive HoverQueryOutcome
  | failed
  | noResult
  | hoverInfo (info : HoverInformation)
  | datatipInfo (tip : Datatip)
deriving DecidableEq, Repr

/-- Whether the outcome is a React-component datatip (the variant
`convertDatatip` refuses to convert). -/
def HoverQueryOutcome.isComponentTip : HoverQueryOutcome → Bool
  | .datatipInfo (.component _) => true
  | _ => false

/-- The early-return guard of `showHoverOverlay`:
`this.currentMarkerRange && result.range?.intersectsWith(this.currentMarkerRange)`.
When the result has no range the optional chain is undefined and the
guard is falsy. -/
def earlyIntersect (s : EngineState) (resultRange : Option BufRange) : Bool :=
  match s.currentMarkerRange, resultRange with
  | some cur, some r => rangesIntersectB r cur
  | _, _ => false

/-- The defensive guard of `showHoverOverlay`:
`result.range && !result.range.containsPoint(position)`. -/
def rangeMissesPosition (resultRange : Option BufRange) (position : Pos) : Bool :=
  match resultRange with
  | some r => !(containsPointB r position)
  | none => false

/-- The non-null-result arm of `showHoverOverlay`: early-return when the
result range intersects the current marker range or does not contain the
query position; otherwise unmount, set the marker range to the result
range (or a zero-width range at the query position), and — when the
result survived datatip conversion — render its contents.  The external
renderer `renderOverlayContent` returns null when the markdown produces
empty HTML output; `renderOk` models that behaviour, applied to the
markdown handed to it.  Only a non-null element (`if (element)`) is
mounted; a null element leaves the marker range set with nothing
mounted. -/
def hoverDisplayStep (s : EngineState) (position : Pos)
    (resultRange : Option BufRange) (converted : Option HoverContents)
    (renderOk : String → Bool) : EngineState × List EngineEvent :=
  if earlyIntersect s resultRange then (s, [])
  else if rangeMissesPosition resultRange position then (s, [])
  else
    let u := unmountOverlay s
    let newRange := resultRange.getD ⟨position, position⟩
    let s2 := { u.1 with currentMarkerRange := some newRange }
    match converted with
    | none => (s2, u.2)
    | some contents =>
      if renderOk contents.value then
        ({ s2 with overlayMarkerDisposables := some (),
                   currentOverlayType := some OverlayType.hover },
         u.2 ++ [EngineEvent.mount OverlayType.hover contents.value])
      else (s2, u.2)

/-- The function `showHoverOverlay`, given the outcome of the provider
queries and the renderer model `renderOk`.  A thrown exception reaches
the catch block, which unmounts and logs.  A null result unmounts a
currently showing hover overlay and mounts nothing.  A non-null result
goes through `hoverDisplayStep`; a datatip result is converted (after
the unmount) by `convertDatatip`, and mounts nothing if conversion
yields null or rendering yields null. -/
def showHoverOverlay (s : EngineState) (position : Pos)
    (outcome : HoverQueryOutcome) (renderOk : String → Bool) :
    EngineState × List EngineEvent :=
  match outcome with
  | .failed =>
    let u := unmountOverlay s
    (u.1, u.2 ++ [EngineEvent.logError])
  | .noResult =>
    if s.currentOverlayType = some OverlayType.hover then unmountOverlay s
    else (s, [])
  | .hoverInfo info =>
    hoverDisplayStep s position info.range (some info.contents) renderOk
  | .datatipInfo tip =>
    hoverDisplayStep s position (some tip.range)
      ((convertDatatip tip).map (fun info => info.contents)) renderOk

/-- Outcome of a signature-help provider query. -/
inductive SigQueryOutcome
  | failed
  | noResult
  | help (sh : SignatureHelp)
deriving DecidableEq, Repr

/-- The function `showSignatureHelp`, given the outcome of the provider
query and the renderer model `renderOk`.  A thrown query reaches the
catch block, which only logs — the previously mounted overlay is left
untouched because the unmount sits after the `await`.  A successful
query unmounts, then bails on an empty result; an out-of-range
active-signature index makes the original code throw a `TypeError`
(reading `.parameters` of undefined), caught by the same log-only catch.
Otherwise the markdown is composed; an empty markdown bails; a markdown
whose rendering yields null makes `element.style.setProperty` throw a
`TypeError` — before the marker range is set — again caught by the
log-only catch; anything else is rendered and mounted as a
signature-help overlay at a zero-width marker range at the query
position. -/
def showSignatureHelp (s : EngineState) (position : Pos) (grammarName : String)
    (includeSigDoc : Bool) (outcome : SigQueryOutcome)
    (renderOk : String → Bool) : EngineState × List EngineEvent :=
  match outcome with
  | .failed => (s, [EngineEvent.logError])
  | .noResult => unmountOverlay s
  | .help sh =>
    let u := unmountOverlay s
    if sh.signatures.length = 0 then u
    else
      match sh.signatures.get? (sh.activeSignature.getD 0) with
      | none => (u.1, u.2 ++ [EngineEvent.logError])
      | some signature =>
        let parameter := (signature.parameters.getD []).get? (sh.activeParameter.getD 0)
        let mdhl :=
          match parameter with
          | some p => buildParameterDocumentation p signature grammarName includeSigDoc
          | none =>
            match signature.documentation with
            | some _ => (buildSignatureDocumentation signature, none)
            | none => ("", none)
        if mdhl.1 = "" then u
        else if renderOk mdhl.1 then
          ({ u.1 with currentMarkerRange := some ⟨position, position⟩,
                      overlayMarkerDisposables := some (),
                      currentOverlayType := some OverlayType.signatureHelp },
           u.2 ++ [EngineEvent.mount OverlayType.signatureHelp mdhl.1])
        else (u.1, u.2 ++ [EngineEvent.logError])

/-- The guard `!this.currentMarkerRange?.containsPoint(position)` of
`onCursorRemain`: true when no marker range exists or the position lies
outside it. -/
def outsideMarkerB (s : EngineState) (p : Pos) : Bool :=
  match s.currentMarkerRange with
  | some r => !(containsPointB r p)
  | none => true

/-- The function `onCursorRemain`: ignore cursor moves caused by text edits; consult
`hover.showOnCursorMove` unless a signature-help overlay is open; consult
`signatureHelp.showOverlayWhileTyping` when one is open; then invoke
hover resolution at the cursor position when it lies outside the current
marker range and `hover.showOnCursorMove` is enabled. -/
def onCursorRemain (s : EngineState) (textChanged : Bool) (position : Pos)
    (outcome : HoverQueryOutcome) (renderOk : String → Bool) :
    EngineState × List EngineEvent :=
  if textChanged then (s, [])
  else if !s.showHoverOnCursorMove &&
      !(decide (s.currentOverlayType = some OverlayType.signatureHelp)) then (s, [])
  else if !s.showSignatureHelpWhileTyping &&
      decide (s.currentOverlayType = some OverlayType.signatureHelp) then (s, [])
  else if outsideMarkerB s position && s.showHoverOnCursorMove then
    let q := showHoverOverlay s position outcome renderOk
    (q.1, EngineEvent.hoverQuery position :: q.2)
  else (s, [])

/-- A single entry of a buffer-changed event. -/
structure TextChange where
  newRangeStart : Pos
  newRangeEnd : Pos
  oldText : String
  newText : String
deriving DecidableEq, Repr

/-- The function `filterTextChanges`: drop changes whose old and new text coincide. -/
def filterTextChanges (changes : List TextChange) : List TextChange :=
  changes.filter (fun c => !(c.oldText == c.newText))

/-- The signature provider as seen by the retrigger path: whether it is a
modern `SignatureProvider` (`isSignatureProvider`), and its optional
trigger and retrigger character sets. -/
structure SigProviderInfo where
  isSignature : Bool
  triggerCharacters : Option (List Char)
  retriggerCharacters : Option (List Char)
deriving DecidableEq, Repr

/-- The function `set?.has(ch) === true` on an optional character set and a possibly
undefined character. -/
def optSetHas (set : Option (List Char)) (ch : Option Char) : Bool :=
  match set, ch with
  | some l, some c => l.contains c
  | _, _ => false

/-- The character immediately before the selection start within the
inserted text: `change.newText[Math.max(0, column - startColumn - 1)]`,
undefined when the index is out of bounds.  Natural-number subtraction
clamps at zero exactly like the `Math.max`. -/
def triggerChar (c : TextChange) (cursorPosition : Pos) : Option Char :=
  c.newText.toList.get? (cursorPosition.col - c.newRangeStart.col - 1)

/-- The bail condition of `onTextDidChangeSignatureHelp` for a single
effective change: a deletion, a multi-line insertion, or an inserted
range that does not contain the selection start. -/
def changeBails (c : TextChange) (cursorPosition : Pos) : Bool :=
  decide (c.newText.length = 0) ||
  !(c.newRangeStart.row == c.newRangeEnd.row) ||
  !(containsPointB ⟨c.newRangeStart, c.newRangeEnd⟩ cursorPosition)

/-- The function `onTextDidChangeSignatureHelp`, given the buffer changes, the
selection start, the resolved provider (null when neither registry has
one), and the outcome of the signature query should one be issued.
Batches without exactly one effective change return without unmounting;
a bailing change unmounts; a trigger character (or a retrigger character
with the overlay already open, for a modern provider) issues a query with
trigger kind `triggered` carrying the character and
`isRetrigger = overlay already open`; any other character does nothing. -/
def onTextDidChangeSignatureHelp (s : EngineState) (changes : List TextChange)
    (cursorPosition : Pos) (provider : Option SigProviderInfo)
    (grammarName : String) (includeSigDoc : Bool) (outcome : SigQueryOutcome)
    (renderOk : String → Bool) : EngineState × List EngineEvent :=
  match filterTextChanges changes with
  | [change] =>
    if changeBails change cursorPosition then unmountOverlay s
    else
      match provider with
      | none => (s, [])
      | some p =>
        let potentialTriggerCharacter := triggerChar change cursorPosition
        let alreadyOpen : Bool :=
          decide (s.currentOverlayType = some OverlayType.signatureHelp)
        if optSetHas p.triggerCharacters potentialTriggerCharacter ||
            (p.isSignature && optSetHas p.retriggerCharacters potentialTriggerCharacter
              && alreadyOpen) then
          let context : SignatureHelpContext :=
            { triggerKind := SigTriggerKind.triggerCharacter,
              triggerCharacter := potentialTriggerCharacter,
              isRetrigger := alreadyOpen }
          let q := showSignatureHelp s cursorPosition grammarName includeSigDoc
            outcome renderOk
          (q.1, EngineEvent.sigQuery context :: q.2)
        else (s, [])
  | _ => (s, [])

/-- One operation of the engine, with the asynchronous inputs it consumes
passed explicitly. -/
inductive EngineOp
  | unmount
  | showHover (position : Pos) (outcome : HoverQueryOutcome)
      (renderOk : String → Bool)
  | showSig (position : Pos) (grammarName : String) (includeSigDoc : Bool)
      (outcome : SigQueryOutcome) (renderOk : String → Bool)
  | cursorRemain (textChanged : Bool) (position : Pos) (outcome : HoverQueryOutcome)
      (renderOk : String → Bool)
  | textChange (changes : List TextChange) (cursorPosition : Pos)
      (provider : Option SigProviderInfo) (grammarName : String)
      (includeSigDoc : Bool) (outcome : SigQueryOutcome)
      (renderOk : String → Bool)

/-- Dispatch one operation. -/
def stepEngine (s : EngineState) : EngineOp → EngineState × List EngineEvent
  | EngineOp.unmount => unmountOverlay s
  | EngineOp.showHover p o rok => showHoverOverlay s p o rok
  | EngineOp.showSig p g inc o rok => showSignatureHelp s p g inc o rok
  | EngineOp.cursorRemain tc p o rok => onCursorRemain s tc p o rok
  | EngineOp.textChange chs p prov g inc o rok =>
    onTextDidChangeSignatureHelp s chs p prov g inc o rok

/-- Run a sequence of operations, concatenating the event traces. -/
def runEngine (s : EngineState) : List EngineOp → EngineState × List EngineEvent
  | [] => (s, [])
  | op :: rest =>
    let p1 := stepEngine s op
    let p2 := runEngine p1.1 rest
    (p2.1, p1.2 ++ p2.2)

/-- Number of live overlay handles after a trace, starting from `n`. -/
def liveAfter (n : Nat) : List EngineEvent → Nat
  | [] => n
  | EngineEvent.unmountDispose :: rest => liveAfter (n - 1) rest
  | EngineEvent.mount _ _ :: rest => liveAfter (n + 1) rest
  | _ :: rest => liveAfter n rest

/-- The single-overlay discipline along a trace starting with `n` live
handles: at every observation point at most one handle is live, and every
mount happens with zero handles live — i.e. the unmount of any previous
overlay has already run earlier in the same trace. -/
def overlayInvariantB (n : Nat) : List EngineEvent → Bool
  | [] => decide (n ≤ 1)
  | EngineEvent.unmountDispose :: rest =>
    decide (n ≤ 1) && overlayInvariantB (n - 1) rest
  | EngineEvent.mount _ _ :: rest =>
    decide (n ≤ 1) && decide (n = 0) && overlayInvariantB (n + 1) rest
  | _ :: rest => decide (n ≤ 1) && overlayInvariantB n rest

/-- Equivalence of `currentMarkerRange` and `overlayMarkerDisposables`
being set, the invariant of claim C2. -/
def iffConsistent (s : EngineState) : Bool :=
  s.currentMarkerRange.isSome == s.overlayMarkerDisposables.isSome

/-! ### Concrete states and inputs used by counterexamples and witnesses -/

/-- An idle engine: nothing mounted, default-ish settings. -/
def engineIdle : EngineState := ⟨none, none, none, true, true⟩

/-- An engine with a signature-help overlay mounted and
`hover.showOnCursorMove` disabled. -/
def sigOpenState : EngineState :=
  ⟨some (), some ⟨⟨1, 0⟩, ⟨1, 3⟩⟩, some OverlayType.signatureHelp, false, true⟩

/-- A concrete range used in counterexamples. -/
def cexRange : BufRange := ⟨⟨0, 0⟩, ⟨0, 5⟩⟩

/-- A concrete position inside `cexRange`. -/
def cexPos : Pos := ⟨0, 2⟩

/-- A single-character insertion of an opening parenthesis at row 0,
column 5, with the selection start right after it. -/
def parenChange : TextChange := ⟨⟨0, 5⟩, ⟨0, 6⟩, "", "("⟩

/-- A modern signature provider with trigger character the opening
parenthesis and retrigger character the closing one. -/
def parenProv : SigProviderInfo := ⟨true, some ['('], some [')']⟩

/-- Two distinct effective text changes, for the multi-change batch
counterexample. -/
def chgA : TextChange := ⟨⟨0, 0⟩, ⟨0, 1⟩, "", "a"⟩

/-- Second effective text change of the batch. -/
def chgB : TextChange := ⟨⟨1, 0⟩, ⟨1, 1⟩, "", "b"⟩

/-- The markdown payload `showHoverOverlay` hands to the renderer for a
given outcome, when one exists: the contents of a hover result, or the
joined conversion of a marked-string datatip.  Failed and null outcomes,
and component datatips, reach no render call. -/
def hoverRenderedPayload : HoverQueryOutcome → Option String
  | HoverQueryOutcome.hoverInfo info => some info.contents.value
  | HoverQueryOutcome.datatipInfo (Datatip.marked strs _) =>
    some (String.intercalate "\n\n" (strs.map convertMarkedString))
  | _ => none

/-- Whether the renderer yields a non-null element for the payload of an
outcome; vacuously true when no payload reaches the renderer. -/
def hoverPayloadRenders (renderOk : String → Bool) (o : HoverQueryOutcome) : Bool :=
  match hoverRenderedPayload o with
  | some md => renderOk md
  | none => true

/-- A renderer that yields a fragment for every markdown payload. -/
def renderAlways : String → Bool := fun _ => true

/-- A renderer that yields null exactly on the empty markdown string, the
simplest instance of markdown whose HTML output is empty. -/
def renderNullOnEmpty : String → Bool := fun md => !(md == "")

/-- Modelled from the spec side of claim C3: the expected observable
behaviour of the debounce — the handler fires exactly once, with the
arguments of the last call, one full duration after that call (and not at
all when there was no call). -/
def specDebounceFires {α : Type} (d : Nat) (calls : List (Nat × α)) :
    List (Nat × α) :=
  match calls.getLast? with
  | some (t, a) => [(t + d, a)]
  | none => []

/-! ### Timer lemmas -/

/-- A timeout that is armed strictly in the future does not fire when the
clock advances to `t`. -/
theorem fireIfDue_not_due {α : Type} (t : Nat) (s : TimerState α)
    (h : ∀ ft x, s.timeout = some (ft, x) → t < ft) :
    fireIfDue t s = (s, []) := by
  cases hs : s.timeout with
  | none => simp [fireIfDue, hs]
  | some q =>
    obtain ⟨ft, x⟩ := q
    have hlt := h ft x hs
    simp [fireIfDue, hs, Nat.not_le.mpr hlt]

/-- Scheduling completely overwrites the timer state. -/
theorem Timer.schedule_eq {α : Type} (d t : Nat) (a : α) (s : TimerState α) :
    Timer.schedule d t a s = ⟨some (t + d, a), some a⟩ := rfl

/-- Main debounce lemma: running a non-empty burst of schedule calls, each
less than one duration after its predecessor, from a state whose armed
timeout (if any) lies strictly after the first call, produces exactly the
single firing described by `specDebounceFires`. -/
theorem runSchedules_fresh {α : Type} (d : Nat) (rest : List (Nat × α)) :
    ∀ (t : Nat) (a : α) (s : TimerState α),
      (∀ ft x, s.timeout = some (ft, x) → t < ft) →
      gapsLtB d ((t, a) :: rest) = true →
      (runSchedules d s ((t, a) :: rest)).2 = specDebounceFires d ((t, a) :: rest) := by
  induction rest with
  | nil =>
    intro t a s hfresh _
    simp [runSchedules, fireIfDue_not_due t s hfresh, Timer.schedule_eq,
      specDebounceFires]
  | cons c rest2 ih =>
    intro t a s hfresh hgaps
    obtain ⟨t2, a2⟩ := c
    have hg : t2 < t + d ∧ gapsLtB d ((t2, a2) :: rest2) = true := by
      simpa [gapsLtB] using hgaps
    have hstep := ih t2 a2 ⟨some (t + d, a), some a⟩
      (by intro ft x hx; injection hx with hx; injection hx with h1 h2; omega)
      hg.2
    have h1 : runSchedules d s ((t, a) :: (t2, a2) :: rest2) =
        ((runSchedules d (Timer.schedule d t a (fireIfDue t s).1)
            ((t2, a2) :: rest2)).1,
         (fireIfDue t s).2 ++
           (runSchedules d (Timer.schedule d t a (fireIfDue t s).1)
             ((t2, a2) :: rest2)).2) := rfl
    rw [h1, fireIfDue_not_due t s hfresh]
    dsimp only
    rw [Timer.schedule_eq, hstep, List.nil_append]
    simp [specDebounceFires]

/-- C3: for every burst of schedule calls with less than the configured
duration between consecutive calls, the bound handler fires exactly once,
with the arguments of the last call, one full duration after that last
call (rescheduling resets the full duration); and unschedule with no
pending invocation has no effect. -/
theorem timer_debounce_fires_once {α : Type} (d : Nat) (calls : List (Nat × α))
    (hgaps : gapsLtB d calls = true) :
    (runSchedules d timerIdle calls).2 = specDebounceFires d calls ∧
    (∀ s : TimerState α, s.timeout = none → Timer.unschedule s = s) := by
  constructor
  · cases calls with
    | nil => rfl
    | cons c rest =>
      obtain ⟨t, a⟩ := c
      exact runSchedules_fresh d rest t a timerIdle
        (by intro ft x h; simp [timerIdle] at h) hgaps
  · intro s hs
    simp [Timer.unschedule, hs]

/-- Witness for C3 at a concrete burst of three calls with duration 5 and
gaps of 2: one firing, at time 4 + 5 = 9, with the last arguments. -/
theorem timer_debounce_fires_once_witness :
    (runSchedules 5 (timerIdle (α := Nat)) [(0, 10), (2, 20), (4, 30)]).2 =
      [(9, 30)] ∧
    Timer.unschedule (timerIdle (α := Nat)) = timerIdle := by
  have h := timer_debounce_fires_once (α := Nat) 5 [(0, 10), (2, 20), (4, 30)]
    (by decide)
  exact ⟨h.1, h.2 timerIdle rfl⟩

/-- C10: scheduling and then unscheduling before the duration elapses
never invokes the handler and leaves `isPending` false, yet `pendingArgs`
still holds the arguments of the cancelled call; `pendingArgs` is reset
to null only by an actual firing. -/
theorem timer_unschedule_keeps_pendingArgs {α : Type} (d t t2 : Nat) (a : α)
    (h : t2 < t + d) :
    (fireIfDue t2 (Timer.schedule d t a timerIdle)).2 = [] ∧
    Timer.isPending
      (Timer.unschedule (fireIfDue t2 (Timer.schedule d t a timerIdle)).1) = false ∧
    (Timer.unschedule (fireIfDue t2 (Timer.schedule d t a timerIdle)).1).pendingArgs
      = some a ∧
    (∀ t3 : Nat,
      (fireIfDue t3
        (Timer.unschedule (fireIfDue t2 (Timer.schedule d t a timerIdle)).1)).2 = []) ∧
    (fireIfDue (t + d) (Timer.schedule d t a timerIdle)).1.pendingArgs = none ∧
    (fireIfDue (t + d) (Timer.schedule d t a timerIdle)).2 = [(t + d, a)] := by
  have hs : Timer.schedule d t a (timerIdle (α := α)) = ⟨some (t + d, a), some a⟩ :=
    rfl
  rw [hs]
  have hnd : fireIfDue t2 (⟨some (t + d, a), some a⟩ : TimerState α) =
      (⟨some (t + d, a), some a⟩, []) := by
    simp [fireIfDue, Nat.not_le.mpr h]
  rw [hnd]
  refine ⟨rfl, rfl, rfl, ?_, ?_, ?_⟩
  · intro t3
    simp [Timer.unschedule, fireIfDue]
  · simp [fireIfDue]
  · simp [fireIfDue]

/-- Witness for C10 with duration 5, a call at time 0 and an unschedule at
time 3. -/
theorem timer_unschedule_keeps_pendingArgs_witness :
    (fireIfDue 3 (Timer.schedule 5 0 (42 : Nat) timerIdle)).2 = [] ∧
    Timer.isPending
      (Timer.unschedule (fireIfDue 3 (Timer.schedule 5 0 (42 : Nat) timerIdle)).1)
        = false ∧
    (Timer.unschedule
      (fireIfDue 3 (Timer.schedule 5 0 (42 : Nat) timerIdle)).1).pendingArgs
        = some 42 ∧
    (∀ t3 : Nat,
      (fireIfDue t3
        (Timer.unschedule
          (fireIfDue 3 (Timer.schedule 5 0 (42 : Nat) timerIdle)).1)).2 = []) ∧
    (fireIfDue (0 + 5) (Timer.schedule 5 0 (42 : Nat) timerIdle)).1.pendingArgs
      = none ∧
    (fireIfDue (0 + 5) (Timer.schedule 5 0 (42 : Nat) timerIdle)).2 = [(0 + 5, 42)] :=
  timer_unschedule_keeps_pendingArgs 5 0 3 42 (by decide)

/-! ### Provider registry lemmas -/

/-- Stability of the priority sort: restricting the sorted list to any
single priority value gives back the restriction of the unsorted list,
i.e. ties keep their original relative order. -/
theorem insertionSort_filter_priority (l : List Provider) (k : Int) :
    (l.insertionSort priorityLe).filter (fun p => p.priority == k) =
      l.filter (fun p => p.priority == k) := by
  have hperm : List.Perm
      ((l.insertionSort priorityLe).filter (fun p => p.priority == k))
      (l.filter (fun p => p.priority == k)) :=
    (List.perm_insertionSort priorityLe l).filter _
  have hpair : (l.filter (fun p => p.priority == k)).Pairwise priorityLe := by
    apply List.pairwise_of_forall_mem_list
    intro a ha b hb
    have ha2 : (a.priority == k) = true := (List.mem_filter.mp ha).2
    have hb2 : (b.priority == k) = true := (List.mem_filter.mp hb).2
    have ha3 : a.priority = k := by simpa using ha2
    have hb3 : b.priority = k := by simpa using hb2
    simp [priorityLe, ha3, hb3]
  have hsub : List.Sublist (l.filter (fun p => p.priority == k))
      (l.insertionSort priorityLe) :=
    List.sublist_insertionSort hpair (List.filter_sublist l)
  have hsub2 : List.Sublist
      ((l.filter (fun p => p.priority == k)).filter (fun p => p.priority == k))
      ((l.insertionSort priorityLe).filter (fun p => p.priority == k)) :=
    hsub.filter _
  have hid : (l.filter (fun p => p.priority == k)).filter (fun p => p.priority == k)
      = l.filter (fun p => p.priority == k) :=
    List.filter_eq_self.mpr (fun a ha => (List.mem_filter.mp ha).2)
  rw [hid] at hsub2
  exact (hsub2.eq_of_length hperm.length_eq.symm).symm

/-- C4: `getAllProvidersForEditor` returns exactly the registered
providers whose scope list is absent or contains the scope name of the
editor, sorted ascending by priority with ties keeping insertion order,
and `getProviderForEditor` returns the first element of that list or null
when it is empty. -/
theorem registry_resolution_correct (providers : List Provider) (scopeName : String) :
    List.Perm (getAllProvidersForEditor providers scopeName)
      (providers.filter (isEditorSupported scopeName)) ∧
    (∀ p : Provider, isEditorSupported scopeName p = true ↔
      (p.grammarScopes = none ∨
        ∃ scopes, p.grammarScopes = some scopes ∧ scopeName ∈ scopes)) ∧
    (getAllProvidersForEditor providers scopeName).Pairwise priorityLe ∧
    (∀ k : Int,
      (getAllProvidersForEditor providers scopeName).filter (fun p => p.priority == k)
        = (providers.filter (isEditorSupported scopeName)).filter
            (fun p => p.priority == k)) ∧
    getProviderForEditor providers scopeName =
      (getAllProvidersForEditor providers scopeName).head? := by
  refine ⟨List.perm_insertionSort _ _, ?_, List.sorted_insertionSort _ _,
    fun k => insertionSort_filter_priority _ k, ?_⟩
  · intro p
    cases hg : p.grammarScopes with
    | none => simp [isEditorSupported, hg]
    | some scopes =>
      simp only [isEditorSupported, hg]
      constructor
      · intro hc
        exact Or.inr ⟨scopes, rfl, List.elem_iff.mp hc⟩
      · intro hor
        rcases hor with hnone | ⟨scopes2, heq, hmem⟩
        · exact absurd hnone (by simp)
        · injection heq with heq
          subst heq
          exact List.elem_iff.mpr hmem
  · unfold getProviderForEditor
    cases h : getAllProvidersForEditor providers scopeName with
    | nil => simp [h]
    | cons a t => simp [h]

/-- C6: the language inferred from a grammar scope name.  The regex
`^source\.(.*?)` has a lazy group with nothing after it, so the capture
is always the empty string: `source.python` yields the empty language
tag, not `python`; names not starting with `source.` also yield the
empty tag, and the fenced block produced for a snippet therefore carries
no language tag. -/
theorem infer_language_lazy_capture :
    inferLanguageFromScopeName "source.python" = "" ∧
    inferLanguageFromScopeName "source.python" ≠ "python" ∧
    inferLanguageFromScopeName "plain.text" = "" ∧
    convertMarkedString (MarkedString.snippet "x = 1" "source.python") =
      "```" ++ "" ++ "\n" ++ "[object Object]" ++ "\n```" := by
  refine ⟨by decide, by decide, by decide, rfl⟩

/-! ### Overlay lifecycle lemmas -/

/-- A live-handle count read off a state is zero or one. -/
theorem liveOf_le_one (s : EngineState) : liveOf s ≤ 1 := by
  unfold liveOf
  split <;> simp

/-- The live count after a concatenation of traces. -/
theorem liveAfter_append (n : Nat) (xs ys : List EngineEvent) :
    liveAfter n (xs ++ ys) = liveAfter (liveAfter n xs) ys := by
  induction xs generalizing n with
  | nil => rfl
  | cons e rest ih => cases e <;> simp [liveAfter, ih]

/-- The overlay discipline composes across trace concatenation. -/
theorem overlayInvariantB_append {n : Nat} {xs ys : List EngineEvent}
    (hx : overlayInvariantB n xs = true)
    (hy : overlayInvariantB (liveAfter n xs) ys = true) :
    overlayInvariantB n (xs ++ ys) = true := by
  induction xs generalizing n with
  | nil => simpa [liveAfter] using hy
  | cons e rest ih =>
    cases e with
    | unmountDispose =>
      simp only [overlayInvariantB, liveAfter, List.cons_append,
        Bool.and_eq_true] at hx hy ⊢
      exact ⟨hx.1, ih hx.2 hy⟩
    | mount ty md =>
      simp only [overlayInvariantB, liveAfter, List.cons_append,
        Bool.and_eq_true] at hx hy ⊢
      exact ⟨hx.1, ih hx.2 hy⟩
    | hoverQuery p =>
      simp only [overlayInvariantB, liveAfter, List.cons_append,
        Bool.and_eq_true] at hx hy ⊢
      exact ⟨hx.1, ih hx.2 hy⟩
    | sigQuery c =>
      simp only [overlayInvariantB, liveAfter, List.cons_append,
        Bool.and_eq_true] at hx hy ⊢
      exact ⟨hx.1, ih hx.2 hy⟩
    | logError =>
      simp only [overlayInvariantB, liveAfter, List.cons_append,
        Bool.and_eq_true] at hx hy ⊢
      exact ⟨hx.1, ih hx.2 hy⟩

/-- The per-continuation overlay discipline: the trace of one operation
from state `s` respects the single-overlay invariant, and its final live
count matches the resulting state. -/
def stepOk (s : EngineState) (r : EngineState × List EngineEvent) : Prop :=
  overlayInvariantB (liveOf s) r.2 = true ∧ liveAfter (liveOf s) r.2 = liveOf r.1

/-- An operation that does nothing respects the discipline. -/
theorem stepOk_noop (s : EngineState) : stepOk s (s, []) := by
  refine ⟨?_, rfl⟩
  simpa [overlayInvariantB] using liveOf_le_one s

/-- Prepending an event that neither mounts nor disposes preserves the
discipline. -/
theorem stepOk_cons_neutral (s : EngineState) (e : EngineEvent)
    (hne : (∀ ty md, e ≠ EngineEvent.mount ty md) ∧ e ≠ EngineEvent.unmountDispose)
    (r : EngineState × List EngineEvent) (h : stepOk s r) :
    stepOk s (r.1, e :: r.2) := by
  obtain ⟨h1, h2⟩ := h
  cases e with
  | mount ty md => exact absurd rfl (hne.1 ty md)
  | unmountDispose => exact absurd rfl hne.2
  | hoverQuery p =>
    exact ⟨by simp [overlayInvariantB, h1, liveOf_le_one s], by simpa [liveAfter] using h2⟩
  | sigQuery c =>
    exact ⟨by simp [overlayInvariantB, h1, liveOf_le_one s], by simpa [liveAfter] using h2⟩
  | logError =>
    exact ⟨by simp [overlayInvariantB, h1, liveOf_le_one s], by simpa [liveAfter] using h2⟩

/-- The function `unmountOverlay` respects the discipline. -/
theorem unmountOverlay_stepOk (s : EngineState) : stepOk s (unmountOverlay s) := by
  cases h : s.overlayMarkerDisposables <;>
    simp [stepOk, unmountOverlay, liveOf, h, overlayInvariantB, liveAfter]

/-- The function `hoverDisplayStep` respects the discipline. -/
theorem hoverDisplayStep_stepOk (s : EngineState) (p : Pos)
    (rOpt : Option BufRange) (conv : Option HoverContents)
    (rok : String → Bool) :
    stepOk s (hoverDisplayStep s p rOpt conv rok) := by
  unfold hoverDisplayStep
  split
  · exact stepOk_noop s
  · split
    · exact stepOk_noop s
    · split
      · cases h : s.overlayMarkerDisposables <;>
          simp [stepOk, unmountOverlay, liveOf, h, overlayInvariantB, liveAfter]
      · split
        · cases h : s.overlayMarkerDisposables <;>
            simp [stepOk, unmountOverlay, liveOf, h, overlayInvariantB, liveAfter]
        · cases h : s.overlayMarkerDisposables <;>
            simp [stepOk, unmountOverlay, liveOf, h, overlayInvariantB, liveAfter]

/-- The function `showHoverOverlay` respects the discipline. -/
theorem showHoverOverlay_stepOk (s : EngineState) (p : Pos)
    (o : HoverQueryOutcome) (rok : String → Bool) :
    stepOk s (showHoverOverlay s p o rok) := by
  cases o with
  | failed =>
    cases h : s.overlayMarkerDisposables <;>
      simp [stepOk, showHoverOverlay, unmountOverlay, liveOf, h,
        overlayInvariantB, liveAfter]
  | noResult =>
    simp only [showHoverOverlay]
    split
    · exact unmountOverlay_stepOk s
    · exact stepOk_noop s
  | hoverInfo info =>
    exact hoverDisplayStep_stepOk s p info.range (some info.contents) rok
  | datatipInfo tip =>
    exact hoverDisplayStep_stepOk s p (some tip.range)
      ((convertDatatip tip).map (fun info => info.contents)) rok

/-- The function `showSignatureHelp` respects the discipline. -/
theorem showSignatureHelp_stepOk (s : EngineState) (p : Pos) (g : String)
    (inc : Bool) (o : SigQueryOutcome) (rok : String → Bool) :
    stepOk s (showSignatureHelp s p g inc o rok) := by
  cases o with
  | failed =>
    refine ⟨?_, rfl⟩
    simpa [showSignatureHelp, overlayInvariantB] using liveOf_le_one s
  | noResult => exact unmountOverlay_stepOk s
  | help sh =>
    simp only [showSignatureHelp]
    split
    · exact unmountOverlay_stepOk s
    · split
      · cases h : s.overlayMarkerDisposables <;>
          simp [stepOk, unmountOverlay, liveOf, h, overlayInvariantB, liveAfter]
      · split
        · exact unmountOverlay_stepOk s
        · split
          · cases h : s.overlayMarkerDisposables <;>
              simp [stepOk, unmountOverlay, liveOf, h, overlayInvariantB, liveAfter]
          · cases h : s.overlayMarkerDisposables <;>
              simp [stepOk, unmountOverlay, liveOf, h, overlayInvariantB, liveAfter]

/-- The function `onCursorRemain` respects the discipline. -/
theorem onCursorRemain_stepOk (s : EngineState) (tc : Bool) (p : Pos)
    (o : HoverQueryOutcome) (rok : String → Bool) :
    stepOk s (onCursorRemain s tc p o rok) := by
  unfold onCursorRemain
  split
  · exact stepOk_noop s
  · split
    · exact stepOk_noop s
    · split
      · exact stepOk_noop s
      · split
        · exact stepOk_cons_neutral s (EngineEvent.hoverQuery p)
            ⟨fun ty md => by simp, by simp⟩ _ (showHoverOverlay_stepOk s p o rok)
        · exact stepOk_noop s

/-- The function `onTextDidChangeSignatureHelp` respects the discipline. -/
theorem onTextDidChange_stepOk (s : EngineState) (chs : List TextChange)
    (p : Pos) (prov : Option SigProviderInfo) (g : String) (inc : Bool)
    (o : SigQueryOutcome) (rok : String → Bool) :
    stepOk s (onTextDidChangeSignatureHelp s chs p prov g inc o rok) := by
  unfold onTextDidChangeSignatureHelp
  split
  · split
    · exact unmountOverlay_stepOk s
    · split
      · exact stepOk_noop s
      · dsimp only
        split
        · exact stepOk_cons_neutral s _ ⟨fun ty md => by simp, by simp⟩ _
            (showSignatureHelp_stepOk s p g inc o rok)
        · exact stepOk_noop s
  · exact stepOk_noop s

/-- Every single engine operation respects the discipline. -/
theorem stepEngine_stepOk (s : EngineState) (op : EngineOp) :
    stepOk s (stepEngine s op) := by
  cases op with
  | unmount => exact unmountOverlay_stepOk s
  | showHover p o rok => exact showHoverOverlay_stepOk s p o rok
  | showSig p g inc o rok => exact showSignatureHelp_stepOk s p g inc o rok
  | cursorRemain tc p o rok => exact onCursorRemain_stepOk s tc p o rok
  | textChange chs p prov g inc o rok =>
    exact onTextDidChange_stepOk s chs p prov g inc o rok

/-- Every sequence of engine operations respects the discipline. -/
theorem runEngine_stepOk (s : EngineState) (ops : List EngineOp) :
    stepOk s (runEngine s ops) := by
  induction ops generalizing s with
  | nil => exact stepOk_noop s
  | cons op rest ih =>
    have h1 := stepEngine_stepOk s op
    have h2 := ih (stepEngine s op).1
    have hev : (runEngine s (op :: rest)).2 =
        (stepEngine s op).2 ++ (runEngine (stepEngine s op).1 rest).2 := rfl
    have hst : (runEngine s (op :: rest)).1 = (runEngine (stepEngine s op).1 rest).1 :=
      rfl
    constructor
    · rw [hev]
      exact overlayInvariantB_append h1.1 (by rw [h1.2]; exact h2.1)
    · rw [hev, hst, liveAfter_append, h1.2]
      exact h2.2

/-- C1: along any sequence of engine operations, at most one overlay
handle is live at every observation point of the emitted event trace, and
every mount happens with zero handles live — the unmount of the previous
overlay has already run earlier within the same continuation (the same
operation step). -/
theorem engine_single_overlay_invariant (s : EngineState) (ops : List EngineOp) :
    overlayInvariantB (liveOf s) (runEngine s ops).2 = true ∧
    (∀ (s2 : EngineState) (op : EngineOp),
      overlayInvariantB (liveOf s2) (stepEngine s2 op).2 = true) :=
  ⟨(runEngine_stepOk s ops).1, fun s2 op => (stepEngine_stepOk s2 op).1⟩

/-! ### Marker-range / overlay consistency lemmas -/

/-- The function `showSignatureHelp` always leaves the marker range set exactly when an
overlay is mounted, provided the input state was consistent (only needed
for the throwing-query branch, which leaves the state untouched); a
markdown whose rendering yields null throws before the marker range is
set, so the post-unmount state — both sides null — survives. -/
theorem showSignatureHelp_iffConsistent (s : EngineState) (p : Pos) (g : String)
    (inc : Bool) (o : SigQueryOutcome) (rok : String → Bool)
    (hs : iffConsistent s = true) :
    iffConsistent (showSignatureHelp s p g inc o rok).1 = true := by
  cases o with
  | failed => exact hs
  | noResult => simp [showSignatureHelp, unmountOverlay, iffConsistent]
  | help sh =>
    simp only [showSignatureHelp]
    split
    · simp [unmountOverlay, iffConsistent]
    · split
      · simp [unmountOverlay, iffConsistent]
      · split
        · simp [unmountOverlay, iffConsistent]
        · split
          · simp [unmountOverlay, iffConsistent]
          · simp [unmountOverlay, iffConsistent]

/-- In the result of `hoverDisplayStep`, a mounted overlay implies a set
marker range, provided the input state was consistent. -/
theorem hoverDisplayStep_dir (s : EngineState) (p : Pos) (rOpt : Option BufRange)
    (conv : Option HoverContents) (rok : String → Bool)
    (hs : iffConsistent s = true) :
    (hoverDisplayStep s p rOpt conv rok).1.overlayMarkerDisposables.isSome = true →
    (hoverDisplayStep s p rOpt conv rok).1.currentMarkerRange.isSome = true := by
  have heq : s.currentMarkerRange.isSome = s.overlayMarkerDisposables.isSome := by
    simpa [iffConsistent] using hs
  unfold hoverDisplayStep
  split
  · intro h
    rw [heq]
    exact h
  · split
    · intro h
      rw [heq]
      exact h
    · split
      · intro h
        simp [unmountOverlay] at h
      · split
        · simp
        · intro h
          simp [unmountOverlay] at h

/-- The function `hoverDisplayStep` with a convertible result whose
markdown renders to a non-null element re-establishes the full
equivalence. -/
theorem hoverDisplayStep_iffConsistent (s : EngineState) (p : Pos)
    (rOpt : Option BufRange) (contents : HoverContents) (rok : String → Bool)
    (hs : iffConsistent s = true) (hr : rok contents.value = true) :
    iffConsistent (hoverDisplayStep s p rOpt (some contents) rok).1 = true := by
  unfold hoverDisplayStep
  split
  · exact hs
  · split
    · exact hs
    · simp [unmountOverlay, iffConsistent, hr]

/-- In the result of `showHoverOverlay`, a mounted overlay implies a set
marker range, provided the input state was consistent. -/
theorem showHoverOverlay_dir (s : EngineState) (p : Pos) (o : HoverQueryOutcome)
    (rok : String → Bool) (hs : iffConsistent s = true) :
    (showHoverOverlay s p o rok).1.overlayMarkerDisposables.isSome = true →
    (showHoverOverlay s p o rok).1.currentMarkerRange.isSome = true := by
  have heq : s.currentMarkerRange.isSome = s.overlayMarkerDisposables.isSome := by
    simpa [iffConsistent] using hs
  cases o with
  | failed =>
    intro h
    simp [showHoverOverlay, unmountOverlay] at h
  | noResult =>
    simp only [showHoverOverlay]
    split
    · intro h
      simp [unmountOverlay] at h
    · intro h
      rw [heq]
      exact h
  | hoverInfo info =>
    exact hoverDisplayStep_dir s p info.range (some info.contents) rok hs
  | datatipInfo tip =>
    exact hoverDisplayStep_dir s p (some tip.range)
      ((convertDatatip tip).map (fun info => info.contents)) rok hs

/-- The function `showHoverOverlay` re-establishes the full equivalence
for every outcome other than a component datatip, provided the payload
that reaches the renderer renders to a non-null element. -/
theorem showHoverOverlay_iffConsistent (s : EngineState) (p : Pos)
    (o : HoverQueryOutcome) (rok : String → Bool) (hs : iffConsistent s = true)
    (hcomp : o.isComponentTip = false)
    (hrender : hoverPayloadRenders rok o = true) :
    iffConsistent (showHoverOverlay s p o rok).1 = true := by
  cases o with
  | failed => simp [showHoverOverlay, unmountOverlay, iffConsistent]
  | noResult =>
    simp only [showHoverOverlay]
    split
    · simp [unmountOverlay, iffConsistent]
    · exact hs
  | hoverInfo info =>
    exact hoverDisplayStep_iffConsistent s p info.range info.contents rok hs
      (by simpa [hoverPayloadRenders, hoverRenderedPayload] using hrender)
  | datatipInfo tip =>
    cases tip with
    | component r => simp [HoverQueryOutcome.isComponentTip] at hcomp
    | marked strs r =>
      exact hoverDisplayStep_iffConsistent s p (some r)
        ⟨MarkupKind.markdown, String.intercalate "\n\n" (strs.map convertMarkedString)⟩
        rok hs (by simpa [hoverPayloadRenders, hoverRenderedPayload] using hrender)

/-- C2 (amended): `unmountOverlay` nulls both sides, `showSignatureHelp`
re-establishes the equivalence of a non-null marker range and a mounted
overlay, and `showHoverOverlay` maintains the direction that a mounted
overlay has a marker range and re-establishes the full equivalence
except when the post-unmount result is discarded — either a component
datatip rejected by conversion, or a result whose markdown the renderer
maps to a null element — in which case the marker range, set before the
discard, is left non-null with no overlay mounted. -/
theorem marker_range_consistency_amended (s : EngineState) (p : Pos) (g : String)
    (inc : Bool) (ho : HoverQueryOutcome) (so : SigQueryOutcome)
    (rok : String → Bool) :
    ((unmountOverlay s).1.currentMarkerRange = none ∧
     (unmountOverlay s).1.overlayMarkerDisposables = none) ∧
    (iffConsistent s = true →
      iffConsistent (showSignatureHelp s p g inc so rok).1 = true) ∧
    (iffConsistent s = true →
      (showHoverOverlay s p ho rok).1.overlayMarkerDisposables.isSome = true →
      (showHoverOverlay s p ho rok).1.currentMarkerRange.isSome = true) ∧
    (iffConsistent s = true → HoverQueryOutcome.isComponentTip ho = false →
      hoverPayloadRenders rok ho = true →
      iffConsistent (showHoverOverlay s p ho rok).1 = true) :=
  ⟨⟨rfl, rfl⟩, fun hs => showSignatureHelp_iffConsistent s p g inc so rok hs,
   fun hs => showHoverOverlay_dir s p ho rok hs,
   fun hs hc hr => showHoverOverlay_iffConsistent s p ho rok hs hc hr⟩

/-- Witness for C2 (amended) at concrete inputs: an idle engine stays
consistent through a signature query with a null result and through a
hover query with a null result, under the always-rendering renderer. -/
theorem marker_range_consistency_amended_witness :
    iffConsistent (showSignatureHelp engineIdle cexPos "" false
      SigQueryOutcome.noResult renderAlways).1 = true ∧
    iffConsistent (showHoverOverlay engineIdle cexPos
      HoverQueryOutcome.noResult renderAlways).1 = true := by
  have h := marker_range_consistency_amended engineIdle cexPos "" false
    HoverQueryOutcome.noResult SigQueryOutcome.noResult renderAlways
  exact ⟨h.2.1 (by decide), h.2.2.2 (by decide) (by decide) (by decide)⟩

/-- C2 counterexample: a component datatip whose range contains the query
position, handled from an idle engine, leaves `currentMarkerRange`
non-null while no overlay is mounted; likewise a hover result whose
markdown renders to empty output (the renderer returns null, so the
`if (element)` mount guard fails after the marker range was set).  In
both runs the claimed equivalence is not re-established by
`showHoverOverlay`. -/
theorem marker_range_consistency_cex :
    ((showHoverOverlay engineIdle cexPos
      (HoverQueryOutcome.datatipInfo (Datatip.component cexRange))
      renderAlways).1.currentMarkerRange = some cexRange ∧
     (showHoverOverlay engineIdle cexPos
      (HoverQueryOutcome.datatipInfo (Datatip.component cexRange))
      renderAlways).1.overlayMarkerDisposables = none) ∧
    ((showHoverOverlay engineIdle cexPos
      (HoverQueryOutcome.hoverInfo ⟨none, ⟨MarkupKind.markdown, ""⟩⟩)
      renderNullOnEmpty).1.currentMarkerRange = some ⟨cexPos, cexPos⟩ ∧
     (showHoverOverlay engineIdle cexPos
      (HoverQueryOutcome.hoverInfo ⟨none, ⟨MarkupKind.markdown, ""⟩⟩)
      renderNullOnEmpty).1.overlayMarkerDisposables = none) := by decide

/-! ### Hover round-trip behaviour -/

/-- C5 (amended): a hover result with no range, mounted at a position and
immediately re-queried at the identical position with the same response
(so its markdown rendered to a non-null element), yields an identical
markdown payload and an identical marker range and final state, but the
engine does not early-return: the overlay is unmounted and remounted.
The early return fires only for a result carrying a range that
intersects the mounted marker range. -/
theorem hover_requery_remounts_amended (s : EngineState) (p : Pos)
    (c : HoverContents) (rok : String → Bool) (hm : s.currentMarkerRange = none)
    (hd : s.overlayMarkerDisposables = none) (hr : rok c.value = true) :
    (showHoverOverlay s p (HoverQueryOutcome.hoverInfo ⟨none, c⟩) rok).2 =
      [EngineEvent.mount OverlayType.hover c.value] ∧
    (showHoverOverlay s p (HoverQueryOutcome.hoverInfo ⟨none, c⟩)
      rok).1.currentMarkerRange = some ⟨p, p⟩ ∧
    (showHoverOverlay
        (showHoverOverlay s p (HoverQueryOutcome.hoverInfo ⟨none, c⟩) rok).1 p
        (HoverQueryOutcome.hoverInfo ⟨none, c⟩) rok).1 =
      (showHoverOverlay s p (HoverQueryOutcome.hoverInfo ⟨none, c⟩) rok).1 ∧
    (showHoverOverlay
        (showHoverOverlay s p (HoverQueryOutcome.hoverInfo ⟨none, c⟩) rok).1 p
        (HoverQueryOutcome.hoverInfo ⟨none, c⟩) rok).2 =
      [EngineEvent.unmountDispose, EngineEvent.mount OverlayType.hover c.value] ∧
    (∀ (r : BufRange) (c2 : HoverContents),
      rangesIntersectB r ⟨p, p⟩ = true →
      showHoverOverlay
          (showHoverOverlay s p (HoverQueryOutcome.hoverInfo ⟨none, c⟩) rok).1 p
          (HoverQueryOutcome.hoverInfo ⟨some r, c2⟩) rok =
        ((showHoverOverlay s p (HoverQueryOutcome.hoverInfo ⟨none, c⟩) rok).1, [])) := by
  obtain ⟨d0, m0, t0, b1, b2⟩ := s
  simp only [EngineState.currentMarkerRange] at hm
  simp only [EngineState.overlayMarkerDisposables] at hd
  subst hm
  subst hd
  have hfirst : showHoverOverlay ⟨none, none, t0, b1, b2⟩ p
      (HoverQueryOutcome.hoverInfo ⟨none, c⟩) rok =
      (⟨some (), some ⟨p, p⟩, some OverlayType.hover, b1, b2⟩,
       [EngineEvent.mount OverlayType.hover c.value]) := by
    simp [showHoverOverlay, hoverDisplayStep, earlyIntersect, rangeMissesPosition,
      unmountOverlay, hr]
  have hsecond : showHoverOverlay
      (⟨some (), some ⟨p, p⟩, some OverlayType.hover, b1, b2⟩ : EngineState) p
      (HoverQueryOutcome.hoverInfo ⟨none, c⟩) rok =
      (⟨some (), some ⟨p, p⟩, some OverlayType.hover, b1, b2⟩,
       [EngineEvent.unmountDispose, EngineEvent.mount OverlayType.hover c.value]) := by
    simp [showHoverOverlay, hoverDisplayStep, earlyIntersect, rangeMissesPosition,
      unmountOverlay, hr]
  refine ⟨by rw [hfirst], by rw [hfirst], by rw [hfirst, hsecond],
    by rw [hfirst, hsecond], ?_⟩
  intro r c2 hint
  rw [hfirst]
  simp only [showHoverOverlay, hoverDisplayStep, earlyIntersect, hint]
  simp

/-- Witness for C5 (amended) at concrete inputs, under the
always-rendering renderer. -/
theorem hover_requery_remounts_amended_witness :
    (showHoverOverlay engineIdle cexPos
      (HoverQueryOutcome.hoverInfo ⟨none, ⟨MarkupKind.markdown, "m"⟩⟩)
      renderAlways).2 = [EngineEvent.mount OverlayType.hover "m"] ∧
    showHoverOverlay
        (showHoverOverlay engineIdle cexPos
          (HoverQueryOutcome.hoverInfo ⟨none, ⟨MarkupKind.markdown, "m"⟩⟩)
          renderAlways).1 cexPos
        (HoverQueryOutcome.hoverInfo ⟨some ⟨cexPos, cexPos⟩, ⟨MarkupKind.markdown, "n"⟩⟩)
        renderAlways
      = ((showHoverOverlay engineIdle cexPos
          (HoverQueryOutcome.hoverInfo ⟨none, ⟨MarkupKind.markdown, "m"⟩⟩)
          renderAlways).1, []) := by
  have h := hover_requery_remounts_amended engineIdle cexPos
    ⟨MarkupKind.markdown, "m"⟩ renderAlways rfl rfl rfl
  exact ⟨h.1, h.2.2.2.2 ⟨cexPos, cexPos⟩ ⟨MarkupKind.markdown, "n"⟩ (by decide)⟩

/-- C5 counterexample: re-querying the identical position with the same
no-range response does not early-return — the trace of the second call
disposes the mounted overlay and mounts a new one, where the claim
requires no remount. -/
theorem hover_requery_remounts_cex :
    (showHoverOverlay
        (showHoverOverlay engineIdle cexPos
          (HoverQueryOutcome.hoverInfo ⟨none, ⟨MarkupKind.markdown, "m"⟩⟩)
          renderAlways).1 cexPos
        (HoverQueryOutcome.hoverInfo ⟨none, ⟨MarkupKind.markdown, "m"⟩⟩)
        renderAlways).2 =
      [EngineEvent.unmountDispose, EngineEvent.mount OverlayType.hover "m"] := by
  decide

/-! ### Cursor-rest gating -/

/-- C7 (amended): for a cursor-rest event not caused by a text edit, the
two setting gates behave as claimed, but the final step additionally
requires `hover.showOnCursorMove` to be enabled: hover resolution is
invoked at the cursor position exactly when the gates pass, the cursor
lies outside the current marker range, and `hover.showOnCursorMove` is
enabled; with that setting disabled no hover query is ever issued. -/
theorem cursor_remain_gating_amended (s : EngineState) (tc : Bool) (p : Pos)
    (o : HoverQueryOutcome) (rok : String → Bool) :
    (onCursorRemain s true p o rok = (s, [])) ∧
    (s.showHoverOnCursorMove = false →
      s.currentOverlayType ≠ some OverlayType.signatureHelp →
      onCursorRemain s false p o rok = (s, [])) ∧
    (s.showSignatureHelpWhileTyping = false →
      s.currentOverlayType = some OverlayType.signatureHelp →
      onCursorRemain s false p o rok = (s, [])) ∧
    ((s.showHoverOnCursorMove = true ∨
        s.currentOverlayType = some OverlayType.signatureHelp) →
      (s.showSignatureHelpWhileTyping = true ∨
        s.currentOverlayType ≠ some OverlayType.signatureHelp) →
      outsideMarkerB s p = true → s.showHoverOnCursorMove = true →
      onCursorRemain s false p o rok =
        ((showHoverOverlay s p o rok).1,
         EngineEvent.hoverQuery p :: (showHoverOverlay s p o rok).2)) ∧
    (s.showHoverOnCursorMove = false →
      EngineEvent.hoverQuery p ∉ (onCursorRemain s tc p o rok).2) := by
  refine ⟨rfl, ?_, ?_, ?_, ?_⟩
  · intro h1 h2
    simp [onCursorRemain, h1, h2]
  · intro h1 h2
    simp [onCursorRemain, h1, h2]
  · intro h1 h2 h3 h4
    have g1 : (!s.showHoverOnCursorMove &&
        !(decide (s.currentOverlayType = some OverlayType.signatureHelp))) = false := by
      rcases h1 with h | h <;> simp [h]
    have g2 : (!s.showSignatureHelpWhileTyping &&
        decide (s.currentOverlayType = some OverlayType.signatureHelp)) = false := by
      rcases h2 with h | h <;> simp [h]
    simp [onCursorRemain, g1, g2, h3, h4]
  · intro h1
    cases tc with
    | true => simp [onCursorRemain]
    | false =>
      simp only [onCursorRemain, h1]
      split
      · simp
      · split
        · simp
        · split
          · simp_all
          · simp

/-- Witness for C7 (amended): with both settings enabled, no overlay, and
the cursor outside any marker range, a cursor rest issues a hover query. -/
theorem cursor_remain_gating_amended_witness :
    onCursorRemain engineIdle false cexPos HoverQueryOutcome.noResult renderAlways =
      ((showHoverOverlay engineIdle cexPos HoverQueryOutcome.noResult renderAlways).1,
       EngineEvent.hoverQuery cexPos ::
         (showHoverOverlay engineIdle cexPos HoverQueryOutcome.noResult
           renderAlways).2) := by
  have h := cursor_remain_gating_amended engineIdle false cexPos
    HoverQueryOutcome.noResult renderAlways
  exact h.2.2.2.1 (Or.inl rfl) (Or.inl rfl) (by decide) rfl

/-- C7 counterexample: with `hover.showOnCursorMove` disabled, a
signature-help overlay open, `signatureHelp.showOverlayWhileTyping`
enabled, and the cursor outside the marker range, the claim requires
hover resolution to be invoked — but the engine does nothing. -/
theorem cursor_remain_gating_cex :
    sigOpenState.showHoverOnCursorMove = false ∧
    sigOpenState.currentOverlayType = some OverlayType.signatureHelp ∧
    sigOpenState.showSignatureHelpWhileTyping = true ∧
    outsideMarkerB sigOpenState ⟨2, 0⟩ = true ∧
    onCursorRemain sigOpenState false ⟨2, 0⟩ HoverQueryOutcome.noResult renderAlways
      = (sigOpenState, []) := by decide

/-! ### Signature retriggering -/

/-- C8 (amended): batches without exactly one effective (non-empty)
change are ignored entirely — no query and, contrary to the claim, no
unmount; a single effective change that is a deletion, spans multiple
lines, or does not contain the selection start unmounts any open overlay
and issues no query; otherwise, a registered trigger character issues a
query with trigger kind `triggered` carrying the character and
`isRetrigger` true exactly when a signature-help overlay was already
open, a registered retrigger character of a modern provider with the
overlay already open likewise issues a retriggering query, and every
other character causes no query and no unmount. -/
theorem sig_retrigger_amended (s : EngineState) (changes : List TextChange)
    (p : Pos) (prov : Option SigProviderInfo) (g : String) (inc : Bool)
    (o : SigQueryOutcome) (rok : String → Bool) :
    ((filterTextChanges changes).length ≠ 1 →
      onTextDidChangeSignatureHelp s changes p prov g inc o rok = (s, [])) ∧
    (∀ c, filterTextChanges changes = [c] → changeBails c p = true →
      onTextDidChangeSignatureHelp s changes p prov g inc o rok
        = unmountOverlay s) ∧
    (∀ c, filterTextChanges changes = [c] → changeBails c p = false → prov = none →
      onTextDidChangeSignatureHelp s changes p prov g inc o rok = (s, [])) ∧
    (∀ c pi, filterTextChanges changes = [c] → changeBails c p = false →
      prov = some pi →
      (optSetHas pi.triggerCharacters (triggerChar c p) = true ∨
        (pi.isSignature = true ∧
          optSetHas pi.retriggerCharacters (triggerChar c p) = true ∧
          s.currentOverlayType = some OverlayType.signatureHelp)) →
      onTextDidChangeSignatureHelp s changes p prov g inc o rok =
        ((showSignatureHelp s p g inc o rok).1,
         EngineEvent.sigQuery
           ⟨SigTriggerKind.triggerCharacter, triggerChar c p,
            decide (s.currentOverlayType = some OverlayType.signatureHelp)⟩ ::
           (showSignatureHelp s p g inc o rok).2)) ∧
    (∀ c pi, filterTextChanges changes = [c] → changeBails c p = false →
      prov = some pi →
      optSetHas pi.triggerCharacters (triggerChar c p) = false →
      (pi.isSignature && optSetHas pi.retriggerCharacters (triggerChar c p) &&
        decide (s.currentOverlayType = some OverlayType.signatureHelp)) = false →
      onTextDidChangeSignatureHelp s changes p prov g inc o rok = (s, [])) := by
  refine ⟨?_, ?_, ?_, ?_, ?_⟩
  · intro hlen
    unfold onTextDidChangeSignatureHelp
    cases hfc : filterTextChanges changes with
    | nil => rfl
    | cons c t =>
      cases t with
      | nil => rw [hfc] at hlen; simp at hlen
      | cons c2 t2 => rfl
  · intro c hfc hbail
    unfold onTextDidChangeSignatureHelp
    rw [hfc]
    simp [hbail]
  · intro c hfc hbail hprov
    unfold onTextDidChangeSignatureHelp
    rw [hfc]
    simp [hbail, hprov]
  · intro c pi hfc hbail hprov htrig
    unfold onTextDidChangeSignatureHelp
    rw [hfc]
    have hcond : (optSetHas pi.triggerCharacters (triggerChar c p) ||
        pi.isSignature && optSetHas pi.retriggerCharacters (triggerChar c p) &&
          decide (s.currentOverlayType = some OverlayType.signatureHelp)) = true := by
      rcases htrig with h | ⟨h1, h2, h3⟩
      · simp [h]
      · simp [h1, h2, h3]
    simp [hbail, hprov, hcond]
  · intro c pi hfc hbail hprov h1 h2
    unfold onTextDidChangeSignatureHelp
    rw [hfc]
    simp [hbail, hprov, h1, h2]

/-- Witness for C8 (amended): typing an opening parenthesis with the
selection start immediately after it, where the resolved provider lists
it as a trigger character, issues a `triggered` query carrying the
parenthesis with `isRetrigger = false`. -/
theorem sig_retrigger_amended_witness :
    onTextDidChangeSignatureHelp engineIdle [parenChange] ⟨0, 6⟩ (some parenProv)
      "source.js" false SigQueryOutcome.noResult renderAlways =
      ((showSignatureHelp engineIdle ⟨0, 6⟩ "source.js" false
          SigQueryOutcome.noResult renderAlways).1,
       EngineEvent.sigQuery
         ⟨SigTriggerKind.triggerCharacter, some '(', false⟩ ::
         (showSignatureHelp engineIdle ⟨0, 6⟩ "source.js" false
           SigQueryOutcome.noResult renderAlways).2) := by
  have h := sig_retrigger_amended engineIdle [parenChange] ⟨0, 6⟩ (some parenProv)
    "source.js" false SigQueryOutcome.noResult renderAlways
  have h4 := h.2.2.2.1 parenChange parenProv (by decide) (by decide) rfl
    (Or.inl (by decide))
  simpa using h4

/-- C8 counterexample: a batch of two effective changes with a
signature-help overlay open is ignored without unmounting and without a
query, where the claim requires the overlay to be unmounted. -/
theorem sig_retrigger_cex :
    (filterTextChanges [chgA, chgB]).length = 2 ∧
    sigOpenState.overlayMarkerDisposables.isSome = true ∧
    onTextDidChangeSignatureHelp sigOpenState [chgA, chgB] ⟨0, 1⟩ (some parenProv)
      "" false SigQueryOutcome.noResult renderAlways = (sigOpenState, []) := by
  decide

/-! ### Provider failure handling -/

/-- C9 (amended): a throwing provider query never propagates — both entry
points catch and log.  `showHoverOverlay` additionally unmounts whatever
was showing; `showSignatureHelp` does not: its unmount sits after the
`await`, so a throwing signature query leaves the previously shown
overlay mounted and only logs. -/
theorem provider_failure_amended (s : EngineState) (p : Pos) (g : String)
    (inc : Bool) (rok : String → Bool) :
    (showHoverOverlay s p HoverQueryOutcome.failed rok).1 = (unmountOverlay s).1 ∧
    (showHoverOverlay s p HoverQueryOutcome.failed rok).1.overlayMarkerDisposables
      = none ∧
    (showHoverOverlay s p HoverQueryOutcome.failed rok).2 =
      (unmountOverlay s).2 ++ [EngineEvent.logError] ∧
    showSignatureHelp s p g inc SigQueryOutcome.failed rok =
      (s, [EngineEvent.logError]) :=
  ⟨rfl, rfl, rfl, rfl⟩

/-- C9 counterexample: with a signature-help overlay mounted, a throwing
signature provider leaves the overlay mounted — no unmount happens,
where the claim requires whatever was showing to be unmounted. -/
theorem provider_failure_cex :
    (showSignatureHelp sigOpenState cexPos "g" false SigQueryOutcome.failed
      renderAlways).1.overlayMarkerDisposables.isSome = true ∧
    (showSignatureHelp sigOpenState cexPos "g" false SigQueryOutcome.failed
      renderAlways).1 = sigOpenState ∧
    (showSignatureHelp sigOpenState cexPos "g" false SigQueryOutcome.failed
      renderAlways).2 = [EngineEvent.logError] := by decide
